import Mathlib

/-!
# todoServer.js: a todo list kept in one JSON file

Shallow embedding of the five route handlers of `02-nodejs/todoServer.js`.

* The file `todo.json` is represented by `Option Json`: `none` when
  `fs.existsSync(filename)` is false, otherwise the value `JSON.parse` gives
  for its content.
* A handler is a function from the request and the file to an `Outcome`: the
  file afterwards, the calls made on `res` in order, and whether an exception
  escaped the handler.
* The results of `fs.readFile` / `fs.writeFile` (the `err` argument of the
  callbacks) and of `uuidV4()` are inputs, collected in `Env`.
-/

namespace TodoServer

/-- A JSON value, as produced by `JSON.parse`.  Numbers are integers here: the
handlers only ever test a number for truthiness.  An object is its list of
fields in insertion order. -/
inductive Json where
  | null : Json
  | bool (b : Bool) : Json
  | num (n : Int) : Json
  | str (s : String) : Json
  | arr (items : List Json) : Json
  | obj (fields : List (String × Json)) : Json

/-- A JavaScript value that is either `undefined` (`none`) or a JSON value. -/
abbrev JsVal := Option Json

/-- Property read `v.key` for the keys the handlers use (`id`, `title`,
`description`, `completed`).  The outer `none` is the `TypeError` of reading a
property of `null`; on an object the field is looked up, on any other value
the property is `undefined`. -/
def Json.prop (v : Json) (key : String) : Option JsVal :=
  match v with
  | .null => none
  | .obj fields => some (fields.lookup key)
  | _ => some none

/-- JavaScript truthiness, as used by `||`. -/
def truthy : JsVal → Bool
  | none => false
  | some .null => false
  | some (.bool b) => b
  | some (.num n) => n != 0
  | some (.str s) => s != ""
  | some (.arr _) => true
  | some (.obj _) => true

/-- The JavaScript expression `a || b`. -/
def jsOr (a b : JsVal) : JsVal :=
  if truthy a then a else b

/-- The JavaScript test `v === s` for a string `s`. -/
def strictEqStr : JsVal → String → Bool
  | some (.str t), s => t == s
  | _, _ => false

/-- An object literal as it comes out of `JSON.stringify`: a property whose
value is `undefined` is left out. -/
def mkObj : List (String × JsVal) → Json
  | l => .obj (l.filterMap fun kv => kv.2.map fun v => (kv.1, v))

/-- The body of a response.  `errorPage` is the page that the error handler of
Express sends with status 500 when a handler throws before its first
callback. -/
inductive Payload where
  | empty : Payload
  | text (s : String) : Payload
  | json (v : JsVal) : Payload
  | errorPage : Payload

/-- One call `res.status(status).send(..)` or `res.status(status).json(..)`. -/
structure Response where
  status : Nat
  body : Payload

/-- What the handlers take from outside: the outcome of the file system calls
and the string returned by `uuidV4()`. -/
structure Env where
  readFails : Bool
  writeFails : Bool
  uuid : String

/-- The effect of running one handler: the file afterwards, the responses sent
in order, and whether an exception was thrown (in the handler itself or in one
of its callbacks).  A call on `res` that itself throws sends nothing and is not
listed in `sent`.  An exception thrown in the handler itself, before any
callback, is caught by Express, and the 500 of its error handler is listed in
`sent`; an exception thrown in a callback is caught by nobody.  A failed write
leaves the file as it was. -/
structure Outcome where
  file : Option Json
  sent : List Response
  threw : Bool

/-- The response the client receives: the first one sent.  A later call on the
same `res` comes after the response has gone out and does not change it.
`none` when nothing is sent, which happens only when a callback throws before
any call on `res`. -/
def Outcome.response (o : Outcome) : Option Response :=
  o.sent.head?

/-- The request body `req.body` as left by `bodyParser.json()`, an object: its
fields.  A property the body does not have reads as `undefined`. -/
abbrev ReqBody := List (String × Json)

/-- The call `todos.findIndex((item) => item.id === id)`.  The outer `none` is a
`TypeError` (an item that is `null`); the inner `none` is the result `-1`. -/
def findIndex (id : String) : List Json → Option (Option Nat)
  | [] => some none
  | item :: rest =>
    match item.prop "id" with
    | none => none
    | some v =>
      if strictEqStr v id then some (some 0)
      else (findIndex id rest).map fun r => r.map (· + 1)

/-- Handler of `GET /todos`. -/
def getTodos (env : Env) (file : Option Json) : Outcome :=
  match file with
  | some data =>
    if env.readFails then
      { file := file, sent := [⟨404, .text "File not found"⟩], threw := false }
    else
      { file := file, sent := [⟨200, .json (some data)⟩], threw := false }
  | none =>
    if env.writeFails then
      { file := none, sent := [⟨404, .text "Backend issue"⟩], threw := false }
    else
      -- the callback of `fs.writeFile` has no second argument:
      -- `JSON.parse(undefined)` throws before anything is sent
      { file := some (.arr []), sent := [], threw := true }

/-- Handler of `GET /todos/:id`. -/
def getTodoById (env : Env) (id : String) (file : Option Json) : Outcome :=
  match file with
  | some data =>
    if env.readFails then
      -- no `return` after the 404: `JSON.parse(undefined)` throws
      { file := file, sent := [⟨404, .text "File not found"⟩], threw := true }
    else
      match data with
      | .arr todos =>
        match findIndex id todos with
        | none => { file := file, sent := [], threw := true }
        | some none =>
          -- no `return` after the 404: `todos[-1]` is `undefined`
          { file := file,
            sent := [⟨404, .text "Not Found"⟩, ⟨200, .json none⟩], threw := false }
        | some (some index) =>
          { file := file, sent := [⟨200, .json todos[index]?⟩], threw := false }
      | _ => { file := file, sent := [], threw := true }
  | none => { file := none, sent := [⟨404, .text "Task not found"⟩], threw := false }

/-- The object `newTask` built by the handler of `POST /todos`. -/
def newTask (env : Env) (body : ReqBody) : Json :=
  mkObj [("id", some (.str env.uuid)),
         ("title", body.lookup "title"),
         ("description", body.lookup "description"),
         ("completed", some (.bool false))]

/-- Handler of `POST /todos`. -/
def postTodos (env : Env) (body : ReqBody) (file : Option Json) : Outcome :=
  match file with
  | some data =>
    if env.readFails then
      { file := file, sent := [⟨404, .text "File not found"⟩], threw := true }
    else
      match data with
      | .arr todos =>
        if env.writeFails then
          { file := file, sent := [⟨404, .text "Backend issue"⟩], threw := false }
        else
          { file := some (.arr (todos ++ [newTask env body])),
            sent := [⟨201, .json (some (newTask env body))⟩], threw := false }
      | _ => { file := file, sent := [], threw := true }
  | none =>
    if env.writeFails then
      { file := none, sent := [⟨404, .text "Backend issue"⟩], threw := false }
    else
      { file := some (.arr [newTask env body]),
        sent := [⟨201, .json (some (newTask env body))⟩], threw := false }

/-- The callback of `todos.map` in the handler of `PUT /todos/:id`:
`{id: todo.id, title: req.body.title || todo.title,
  description: req.body.description || todo,
  completed: req.body.completed || todo.completed}`.
`none` is the `TypeError` on a `null` item. -/
def mergeTodo (body : ReqBody) (todo : Json) : Option Json :=
  match todo.prop "id", todo.prop "title", todo.prop "completed" with
  | some id, some title, some completed =>
    some (mkObj [("id", id),
                 ("title", jsOr (body.lookup "title") title),
                 ("description", jsOr (body.lookup "description") (some todo)),
                 ("completed", jsOr (body.lookup "completed") completed)])
  | _, _, _ => none

/-- The call `todos.map(..)` of the handler of `PUT /todos/:id`; `none` when
the callback throws on some item. -/
def mapTodos (body : ReqBody) : List Json → Option (List Json)
  | [] => some []
  | todo :: rest =>
    match mergeTodo body todo, mapTodos body rest with
    | some t, some ts => some (t :: ts)
    | _, _ => none

/-- Handler of `PUT /todos/:id`. -/
def putTodoById (env : Env) (id : String) (body : ReqBody) (file : Option Json) :
    Outcome :=
  match file with
  | some data =>
    if env.readFails then
      { file := file, sent := [⟨404, .text "File not found"⟩], threw := true }
    else
      match data with
      | .arr todos =>
        match findIndex id todos with
        | none => { file := file, sent := [], threw := true }
        | some index =>
          -- `if (index === -1) res.status(404).send();` and the handler goes on
          let first : List Response :=
            match index with
            | none => [⟨404, .empty⟩]
            | some _ => []
          match mapTodos body todos with
          | none => { file := file, sent := first, threw := true }
          | some mapped =>
            if env.writeFails then
              match index with
              | none =>
                -- the 404 has gone out: `send("Backend issue")` throws when it
                -- sets the headers of its string body
                { file := file, sent := first, threw := true }
              | some _ =>
                { file := file, sent := [⟨404, .text "Backend issue"⟩], threw := false }
            else
              -- a `send()` with no body after the 404 sets no header
              { file := some (.arr mapped), sent := first ++ [⟨200, .empty⟩],
                threw := false }
      | _ => { file := file, sent := [], threw := true }
  | none =>
    -- `JSON.stringify([newTask])`: `newTask` is not defined in this handler; the
    -- `ReferenceError` is thrown before any callback and Express answers 500
    { file := none, sent := [⟨500, .errorPage⟩], threw := true }

/-- Handler of `DELETE /todos/:id`. -/
def deleteTodoById (env : Env) (id : String) (file : Option Json) : Outcome :=
  match file with
  | some data =>
    if env.readFails then
      { file := file, sent := [⟨500, .empty⟩], threw := true }
    else
      match data with
      | .arr todos =>
        match findIndex id todos with
        | none => { file := file, sent := [], threw := true }
        | some none => { file := file, sent := [⟨404, .empty⟩], threw := false }
        | some (some index) =>
          if env.writeFails then
            { file := file, sent := [⟨404, .text "Backend issue"⟩], threw := false }
          else
            -- `todos.filter((_, i) => index !== i)`
            { file := some (.arr (todos.eraseIdx index)), sent := [⟨200, .empty⟩],
              threw := false }
      | _ => { file := file, sent := [], threw := true }
  | none => { file := none, sent := [⟨404, .empty⟩], threw := false }

/-! ## Vocabulary of the statements -/

/-- The todo `item` carries the identifier `id`: `item.id === id` holds. -/
def HasId (id : String) (item : Json) : Prop :=
  item.prop "id" = some (some (.str id))

/-- The collection held by the file: empty when the file is absent, the parsed
array otherwise (`none` when the content is not an array). -/
def collection : Option Json → Option (List Json)
  | none => some []
  | some (.arr todos) => some todos
  | some _ => none

/-- The `id` properties of the items of a collection, in order. -/
def ids (todos : List Json) : List (Option JsVal) :=
  todos.map fun t => t.prop "id"

/-- Every identifier is a non-empty string and no two are equal. -/
def ValidIds (l : List (Option JsVal)) : Prop :=
  (∀ v ∈ l, ∃ s : String, s ≠ "" ∧ v = some (some (.str s))) ∧ l.Nodup

/-- The persisted collection exists and its identifiers are valid. -/
def UniqueIds (file : Option Json) : Prop :=
  ∃ todos, collection file = some todos ∧ ValidIds (ids todos)

/-- The three mutating operations. -/
inductive Op where
  | create (body : ReqBody) : Op
  | update (id : String) (body : ReqBody) : Op
  | delete (id : String) : Op

/-- The file after one mutating operation. -/
def step (env : Env) (op : Op) (file : Option Json) : Option Json :=
  match op with
  | .create body => (postTodos env body file).file
  | .update id body => (putTodoById env id body file).file
  | .delete id => (deleteTodoById env id file).file

/-! ## Concrete data used in the closed statements -/

/-- A todo with identifier `a`, not completed. -/
def todoA : Json :=
  .obj [("id", .str "a"), ("title", .str "Buy milk"), ("description", .str "2%"),
        ("completed", .bool false)]

/-- A todo with identifier `b`, completed. -/
def todoB : Json :=
  .obj [("id", .str "b"), ("title", .str "Walk dog"), ("description", .str "park"),
        ("completed", .bool true)]

/-- A second todo that also carries the identifier `a`. -/
def todoA2 : Json :=
  .obj [("id", .str "a"), ("title", .str "Call mum"), ("description", .str "sunday"),
        ("completed", .bool false)]

/-- An environment in which the file system calls succeed. -/
def okEnv : Env := { readFails := false, writeFails := false, uuid := "u1" }

/-! ## Lemmas on the helpers -/

theorem strictEqStr_iff (v : JsVal) (id : String) :
    strictEqStr v id = true ↔ v = some (.str id) := by
  unfold strictEqStr
  split <;> simp_all

theorem prop_of_ne_null {t : Json} (h : t ≠ .null) (key : String) :
    ∃ v, t.prop key = some v := by
  cases t <;> simp_all [Json.prop]

theorem findIndex_cons_hit {id : String} {item : Json} (rest : List Json)
    (h : HasId id item) : findIndex id (item :: rest) = some (some 0) := by
  have h2 : strictEqStr (some (.str id)) id = true := (strictEqStr_iff _ _).2 rfl
  simp [findIndex, show item.prop "id" = some (some (.str id)) from h, h2]

theorem findIndex_cons_miss {id : String} {item : Json} (rest : List Json)
    (hn : item ≠ .null) (h : ¬ HasId id item) :
    findIndex id (item :: rest) = (findIndex id rest).map fun r => r.map (· + 1) := by
  obtain ⟨v, hv⟩ := prop_of_ne_null hn "id"
  have h2 : strictEqStr v id = false := by
    cases hs : strictEqStr v id
    · rfl
    · exact absurd (by rw [HasId, hv, (strictEqStr_iff _ _).1 hs]) h
  simp [findIndex, hv, h2]

theorem findIndex_absent (id : String) :
    ∀ todos : List Json, (∀ t ∈ todos, t ≠ .null) → (∀ t ∈ todos, ¬ HasId id t) →
      findIndex id todos = some none
  | [], _, _ => rfl
  | item :: rest, hn, h => by
    rw [findIndex_cons_miss rest (hn item (by simp)) (h item (by simp)),
      findIndex_absent id rest (fun t ht => hn t (by simp [ht]))
        (fun t ht => h t (by simp [ht]))]
    rfl

theorem findIndex_present (id : String) :
    ∀ todos : List Json, (∀ t ∈ todos, t ≠ .null) → (∃ t ∈ todos, HasId id t) →
      ∃ pre t post, todos = pre ++ t :: post ∧ (∀ x ∈ pre, ¬ HasId id x) ∧
        HasId id t ∧ findIndex id todos = some (some pre.length)
  | [], _, h => by simp at h
  | item :: rest, hn, h => by
    by_cases hi : HasId id item
    · exact ⟨[], item, rest, rfl, by simp, hi, findIndex_cons_hit rest hi⟩
    · have hrest : ∃ t ∈ rest, HasId id t := by
        obtain ⟨t, ht, hid⟩ := h
        rcases List.mem_cons.1 ht with rfl | ht
        · exact absurd hid hi
        · exact ⟨t, ht, hid⟩
      obtain ⟨pre, t, post, hsplit, hpre, ht, hfind⟩ :=
        findIndex_present id rest (fun t ht => hn t (by simp [ht])) hrest
      refine ⟨item :: pre, t, post, by simp [hsplit], ?_, ht, ?_⟩
      · intro x hx
        rcases List.mem_cons.1 hx with rfl | hx
        · exact hi
        · exact hpre x hx
      · rw [findIndex_cons_miss rest (hn item (by simp)) hi, hfind]
        rfl

theorem eraseIdx_split (pre : List Json) (t : Json) (post : List Json) :
    (pre ++ t :: post).eraseIdx pre.length = pre ++ post := by
  induction pre with
  | nil => rfl
  | cons a pre ih => simp [List.eraseIdx, ih]

theorem getElem?_split (pre : List Json) (t : Json) (post : List Json) :
    (pre ++ t :: post)[pre.length]? = some t := by
  induction pre with
  | nil => simp
  | cons a pre ih => simpa using ih

theorem findIndex_split (id : String) (t : Json) (post : List Json) (ht : HasId id t) :
    ∀ pre : List Json, (∀ x ∈ pre, x ≠ .null) → (∀ x ∈ pre, ¬ HasId id x) →
      findIndex id (pre ++ t :: post) = some (some pre.length)
  | [], _, _ => findIndex_cons_hit post ht
  | a :: pre, hn, h => by
    have ih := findIndex_split id t post ht pre (fun x hx => hn x (by simp [hx]))
      (fun x hx => h x (by simp [hx]))
    rw [List.cons_append, findIndex_cons_miss _ (hn a (by simp)) (h a (by simp)), ih]
    rfl

theorem hasId_ne_null {id : String} {t : Json} (h : HasId id t) : t ≠ .null := by
  intro hnull
  subst hnull
  simp [HasId, Json.prop] at h

theorem newTask_hasId (env : Env) (body : ReqBody) : HasId env.uuid (newTask env body) := by
  simp [HasId, newTask, mkObj, Json.prop, List.lookup]

theorem newTask_title (env : Env) (body : ReqBody) :
    (newTask env body).prop "title" = some (body.lookup "title") := by
  cases h : body.lookup "title" <;> cases h2 : body.lookup "description" <;>
    simp [newTask, mkObj, Json.prop, List.lookup, h, h2]

theorem newTask_description (env : Env) (body : ReqBody) :
    (newTask env body).prop "description" = some (body.lookup "description") := by
  cases h : body.lookup "title" <;> cases h2 : body.lookup "description" <;>
    simp [newTask, mkObj, Json.prop, List.lookup, h, h2]

theorem newTask_completed (env : Env) (body : ReqBody) :
    (newTask env body).prop "completed" = some (some (.bool false)) := by
  cases h : body.lookup "title" <;> cases h2 : body.lookup "description" <;>
    simp [newTask, mkObj, Json.prop, List.lookup, h, h2]

/-! ## Delete -/

/-- C4: when the file holds a collection and some todo in it has the requested id,
`DELETE /todos/:id` sends 200 with no body and writes back the collection with the
first todo of that id removed: the todos before it and after it are kept as they
were, in the same order, and the collection is one element shorter. -/
theorem delete_removes_first_match (env : Env) (id : String) (todos : List Json)
    (hread : env.readFails = false) (hwrite : env.writeFails = false)
    (hn : ∀ t ∈ todos, t ≠ .null) (h : ∃ t ∈ todos, HasId id t) :
    ∃ pre t post, todos = pre ++ t :: post ∧ (∀ x ∈ pre, ¬ HasId id x) ∧ HasId id t ∧
      deleteTodoById env id (some (.arr todos)) =
        { file := some (.arr (pre ++ post)), sent := [⟨200, .empty⟩], threw := false } ∧
      (deleteTodoById env id (some (.arr todos))).response = some ⟨200, .empty⟩ ∧
      (pre ++ post).length + 1 = todos.length := by
  obtain ⟨pre, t, post, hsplit, hpre, ht, hfind⟩ := findIndex_present id todos hn h
  have hout : deleteTodoById env id (some (.arr todos)) =
      { file := some (.arr (pre ++ post)), sent := [⟨200, .empty⟩], threw := false } := by
    simp only [deleteTodoById, hread, hwrite, hfind]
    simp [hsplit, eraseIdx_split]
  refine ⟨pre, t, post, hsplit, hpre, ht, hout, ?_, ?_⟩
  · rw [hout]; rfl
  · rw [hsplit]; simp; omega

/-- The delete theorem at a collection of three todos, two of them with the
requested id `a`. -/
theorem delete_removes_first_match_witness :
    (∃ t ∈ [todoA, todoB, todoA2], HasId "a" t) ∧
    ∃ pre t post, [todoA, todoB, todoA2] = pre ++ t :: post ∧ (∀ x ∈ pre, ¬ HasId "a" x) ∧
      HasId "a" t ∧
      deleteTodoById okEnv "a" (some (.arr [todoA, todoB, todoA2])) =
        { file := some (.arr (pre ++ post)), sent := [⟨200, .empty⟩], threw := false } ∧
      (deleteTodoById okEnv "a" (some (.arr [todoA, todoB, todoA2]))).response
        = some ⟨200, .empty⟩ ∧
      (pre ++ post).length + 1 = [todoA, todoB, todoA2].length :=
  ⟨⟨todoA, by simp, rfl⟩,
   delete_removes_first_match okEnv "a" [todoA, todoB, todoA2] rfl rfl
    (by simp [todoA, todoB, todoA2]) ⟨todoA, by simp, rfl⟩⟩

/-- C5, as stated, fails: with two todos of identifier `a` in the file, `DELETE
/todos/a` succeeds and removes the first one only, and the following `GET
/todos/a` answers 200 with the second one, not 404. -/
theorem delete_then_get_duplicate_id :
    (∃ t ∈ [todoA, todoB, todoA2], HasId "a" t) ∧
    deleteTodoById okEnv "a" (some (.arr [todoA, todoB, todoA2])) =
      { file := some (.arr [todoB, todoA2]), sent := [⟨200, .empty⟩], threw := false } ∧
    getTodoById okEnv "a" (some (.arr [todoB, todoA2])) =
      { file := some (.arr [todoB, todoA2]), sent := [⟨200, .json (some todoA2)⟩],
        threw := false } ∧
    ¬ ∃ body, (getTodoById okEnv "a"
        (deleteTodoById okEnv "a" (some (.arr [todoA, todoB, todoA2]))).file).response
          = some ⟨404, body⟩ := by
  refine ⟨⟨todoA, by simp, rfl⟩, rfl, rfl, ?_⟩
  rintro ⟨body, hb⟩
  have h2 : (getTodoById okEnv "a"
      (deleteTodoById okEnv "a" (some (.arr [todoA, todoB, todoA2]))).file).response
        = some ⟨200, .json (some todoA2)⟩ := rfl
  rw [h2] at hb
  simp at hb

/-- C5 (amended): when exactly one todo of the collection has the requested id,
`DELETE /todos/:id` answers 200 and a following `GET /todos/:id` on the file it
wrote answers 404. -/
theorem delete_then_get_not_found (env env' : Env) (id : String)
    (pre : List Json) (t : Json) (post : List Json)
    (hread : env.readFails = false) (hwrite : env.writeFails = false)
    (hread' : env'.readFails = false)
    (hn : ∀ x ∈ pre ++ post, x ≠ .null)
    (ht : HasId id t) (hothers : ∀ x ∈ pre ++ post, ¬ HasId id x) :
    (deleteTodoById env id (some (.arr (pre ++ t :: post)))).response
      = some ⟨200, .empty⟩ ∧
    (getTodoById env' id
      (deleteTodoById env id (some (.arr (pre ++ t :: post)))).file).response
      = some ⟨404, .text "Not Found"⟩ := by
  have hfind : findIndex id (pre ++ t :: post) = some (some pre.length) :=
    findIndex_split id t post ht pre (fun x hx => hn x (by simp [hx]))
      (fun x hx => hothers x (by simp [hx]))
  have hout : deleteTodoById env id (some (.arr (pre ++ t :: post))) =
      { file := some (.arr (pre ++ post)), sent := [⟨200, .empty⟩], threw := false } := by
    simp only [deleteTodoById, hread, hwrite, hfind]
    simp [eraseIdx_split]
  rw [hout]
  refine ⟨rfl, ?_⟩
  simp only [getTodoById, hread', findIndex_absent id (pre ++ post) hn hothers]
  rfl

/-- Delete then get at a collection of three todos, one of them with the
requested id `b`. -/
theorem delete_then_get_not_found_witness :
    HasId "b" todoB ∧
    (deleteTodoById okEnv "b" (some (.arr ([todoA] ++ todoB :: [todoA2])))).response
      = some ⟨200, .empty⟩ ∧
    (getTodoById okEnv "b"
      (deleteTodoById okEnv "b" (some (.arr ([todoA] ++ todoB :: [todoA2])))).file).response
      = some ⟨404, .text "Not Found"⟩ :=
  ⟨rfl, delete_then_get_not_found okEnv okEnv "b" [todoA] todoB [todoA2] rfl rfl rfl
    (by simp [todoA, todoA2]) rfl
    (by simp [HasId, Json.prop, todoA, todoA2])⟩

/-! ## List -/

/-- C8 fails on the code: with no file, `GET /todos` writes `[]` to the file and
then throws in the callback of `fs.writeFile` (`JSON.parse(data)` with `data`
undefined), so that no response is sent at all. -/
theorem list_without_file_throws :
    getTodos okEnv none = { file := some (.arr []), sent := [], threw := true } ∧
    (getTodos okEnv none).response = none :=
  ⟨rfl, rfl⟩

/-! ## Create -/

/-- C9 fails on the code: `POST /todos` appends the new todo and answers 201, but
the payload is the whole new todo (id, title, description, completed) where the
handler is documented to answer with the id, as in `{id: 1}`: the payload is not
the object `{id}`. -/
theorem create_payload_is_not_id_only :
    postTodos okEnv [("title", .str "Buy milk"), ("description", .str "2%")]
        (some (.arr [todoB])) =
      { file := some (.arr [todoB, .obj [("id", .str "u1"), ("title", .str "Buy milk"),
          ("description", .str "2%"), ("completed", .bool false)]]),
        sent := [⟨201, .json (some (.obj [("id", .str "u1"), ("title", .str "Buy milk"),
          ("description", .str "2%"), ("completed", .bool false)]))⟩],
        threw := false } ∧
    (postTodos okEnv [("title", .str "Buy milk"), ("description", .str "2%")]
        (some (.arr [todoB]))).response
      ≠ some ⟨201, .json (some (.obj [("id", .str "u1")]))⟩ := by
  refine ⟨rfl, ?_⟩
  simp [postTodos, okEnv, newTask, mkObj, Outcome.response]

/-- What `POST /todos` does when the file holds a collection: it answers 201
with the complete new todo as payload (the generated id, the title and the
description of the request, `completed` false) and writes back the loaded
collection with that todo appended as last element, the todos already there
unchanged and in the same order, whatever their titles. -/
theorem create_appends (env : Env) (body : ReqBody) (todos : List Json)
    (hread : env.readFails = false) (hwrite : env.writeFails = false) :
    postTodos env body (some (.arr todos)) =
      { file := some (.arr (todos ++ [newTask env body])),
        sent := [⟨201, .json (some (newTask env body))⟩], threw := false } ∧
    (postTodos env body (some (.arr todos))).response
      = some ⟨201, .json (some (newTask env body))⟩ ∧
    HasId env.uuid (newTask env body) ∧
    (newTask env body).prop "title" = some (body.lookup "title") ∧
    (newTask env body).prop "description" = some (body.lookup "description") ∧
    (newTask env body).prop "completed" = some (some (.bool false)) := by
  have hout : postTodos env body (some (.arr todos)) =
      { file := some (.arr (todos ++ [newTask env body])),
        sent := [⟨201, .json (some (newTask env body))⟩], threw := false } := by
    simp [postTodos, hread, hwrite]
  refine ⟨hout, ?_, newTask_hasId env body, newTask_title env body,
    newTask_description env body, newTask_completed env body⟩
  rw [hout]; rfl

/-- The create theorem at a collection of one todo. -/
theorem create_appends_witness :
    postTodos okEnv [("title", .str "Buy milk"), ("description", .str "2%")]
        (some (.arr [todoA])) =
      { file := some (.arr ([todoA] ++
          [newTask okEnv [("title", .str "Buy milk"), ("description", .str "2%")]])),
        sent := [⟨201, .json (some
          (newTask okEnv [("title", .str "Buy milk"), ("description", .str "2%")]))⟩],
        threw := false } :=
  (create_appends okEnv [("title", .str "Buy milk"), ("description", .str "2%")]
    [todoA] rfl rfl).1

/-- C6: from any persisted state (no file, or a file holding a collection), when
the generated id is not yet the id of a todo of the collection, `POST /todos`
answers 201 with a todo carrying that id, and a following `GET /todos/:id` with
that id answers 200 with the same todo, whose title and description are those
of the request and whose `completed` is false. -/
theorem create_then_get (env env' : Env) (body : ReqBody) (file : Option Json)
    (todos : List Json) (hc : collection file = some todos)
    (hn : ∀ t ∈ todos, t ≠ .null) (hfresh : ∀ t ∈ todos, ¬ HasId env.uuid t)
    (hread : env.readFails = false) (hwrite : env.writeFails = false)
    (hread' : env'.readFails = false) :
    ∃ t, (postTodos env body file).response = some ⟨201, .json (some t)⟩ ∧
      HasId env.uuid t ∧
      (getTodoById env' env.uuid (postTodos env body file).file).sent
        = [⟨200, .json (some t)⟩] ∧
      (getTodoById env' env.uuid (postTodos env body file).file).response
        = some ⟨200, .json (some t)⟩ ∧
      t.prop "title" = some (body.lookup "title") ∧
      t.prop "description" = some (body.lookup "description") ∧
      t.prop "completed" = some (some (.bool false)) := by
  have hfind : findIndex env.uuid (todos ++ [newTask env body]) = some (some todos.length) :=
    findIndex_split env.uuid (newTask env body) [] (newTask_hasId env body) todos hn hfresh
  have hget : getTodoById env' env.uuid (some (.arr (todos ++ [newTask env body]))) =
      { file := some (.arr (todos ++ [newTask env body])),
        sent := [⟨200, .json (some (newTask env body))⟩], threw := false } := by
    simp only [getTodoById, hread', hfind]
    simp [getElem?_split]
  have hpost : postTodos env body file =
      { file := some (.arr (todos ++ [newTask env body])),
        sent := [⟨201, .json (some (newTask env body))⟩], threw := false } := by
    cases file with
    | none =>
      simp only [collection, Option.some.injEq] at hc
      subst hc
      simp [postTodos, hwrite]
    | some data =>
      cases data <;> simp only [collection, Option.some.injEq, reduceCtorEq] at hc
      subst hc
      simp [postTodos, hread, hwrite]
  refine ⟨newTask env body, ?_, newTask_hasId env body, ?_, ?_, newTask_title env body,
    newTask_description env body, newTask_completed env body⟩
  · rw [hpost]; rfl
  · rw [hpost]; simp only [hget]
  · rw [hpost]; simp only [hget]; rfl

/-- Create then get at a collection of two todos and the generated id `u1`. -/
theorem create_then_get_witness :
    ∃ t, (postTodos okEnv [("title", .str "Buy milk"), ("description", .str "2%")]
        (some (.arr [todoA, todoB]))).response = some ⟨201, .json (some t)⟩ ∧
      HasId okEnv.uuid t ∧
      (getTodoById okEnv okEnv.uuid
        (postTodos okEnv [("title", .str "Buy milk"), ("description", .str "2%")]
          (some (.arr [todoA, todoB]))).file).sent = [⟨200, .json (some t)⟩] ∧
      (getTodoById okEnv okEnv.uuid
        (postTodos okEnv [("title", .str "Buy milk"), ("description", .str "2%")]
          (some (.arr [todoA, todoB]))).file).response = some ⟨200, .json (some t)⟩ ∧
      t.prop "title"
        = some (List.lookup "title" [("title", Json.str "Buy milk"), ("description", .str "2%")]) ∧
      t.prop "description"
        = some (List.lookup "description" [("title", Json.str "Buy milk"), ("description", .str "2%")]) ∧
      t.prop "completed" = some (some (.bool false)) :=
  create_then_get okEnv okEnv [("title", .str "Buy milk"), ("description", .str "2%")]
    (some (.arr [todoA, todoB])) [todoA, todoB] rfl (by simp [todoA, todoB])
    (by simp [HasId, Json.prop, todoA, todoB, okEnv]) rfl rfl rfl

/-! ## Update -/

theorem mkObj_prop_id (a b c d : JsVal) :
    (mkObj [("id", a), ("title", b), ("description", c), ("completed", d)]).prop "id"
      = some a := by
  cases a <;> cases b <;> cases c <;> cases d <;> simp [mkObj, Json.prop, List.lookup]

theorem mkObj_prop_completed (a b c d : JsVal) :
    (mkObj [("id", a), ("title", b), ("description", c), ("completed", d)]).prop "completed"
      = some d := by
  cases a <;> cases b <;> cases c <;> cases d <;> simp [mkObj, Json.prop, List.lookup]

theorem mergeTodo_of_ne_null (body : ReqBody) {t : Json} (h : t ≠ .null) :
    ∃ t', mergeTodo body t = some t' := by
  obtain ⟨a, ha⟩ := prop_of_ne_null h "id"
  obtain ⟨b, hb⟩ := prop_of_ne_null h "title"
  obtain ⟨c, hc⟩ := prop_of_ne_null h "completed"
  simp [mergeTodo, ha, hb, hc]

theorem mergeTodo_id (body : ReqBody) {t t' : Json} (h : mergeTodo body t = some t') :
    t'.prop "id" = t.prop "id" := by
  unfold mergeTodo at h
  split at h
  · next a b c ha hb hc =>
    simp only [Option.some.injEq] at h
    rw [← h, mkObj_prop_id, ha]
  · simp at h

theorem mergeTodo_completed (body : ReqBody) {t t' : Json}
    (h : mergeTodo body t = some t') :
    ∃ c, t.prop "completed" = some c ∧
      t'.prop "completed" = some (jsOr (body.lookup "completed") c) := by
  unfold mergeTodo at h
  split at h
  · next a b c ha hb hc =>
    simp only [Option.some.injEq] at h
    exact ⟨c, hc, by rw [← h, mkObj_prop_completed]⟩
  · simp at h

theorem mapTodos_some (body : ReqBody) :
    ∀ todos : List Json, (∀ t ∈ todos, t ≠ .null) →
      ∃ mapped : List Json, mapTodos body todos = some mapped ∧
        mapped.length = todos.length ∧
        ∀ (i : Nat) (t : Json), todos[i]? = some t →
          ∃ t', mapped[i]? = some t' ∧ mergeTodo body t = some t'
  | [], _ => ⟨[], rfl, rfl, by simp⟩
  | todo :: rest, hn => by
    obtain ⟨t', ht'⟩ := mergeTodo_of_ne_null body (hn todo (by simp))
    obtain ⟨ts, hts, hlen, hidx⟩ := mapTodos_some body rest (fun t ht => hn t (by simp [ht]))
    refine ⟨t' :: ts, by simp [mapTodos, ht', hts], by simp [hlen], ?_⟩
    intro i t hi
    cases i with
    | zero =>
      simp only [List.getElem?_cons_zero, Option.some.injEq] at hi
      subst hi
      exact ⟨t', by simp, ht'⟩
    | succ j =>
      simp only [List.getElem?_cons_succ] at hi
      obtain ⟨u, hu, hmu⟩ := hidx j t hi
      exact ⟨u, by simpa using hu, hmu⟩

theorem mapTodos_ids (body : ReqBody) :
    ∀ todos mapped : List Json, mapTodos body todos = some mapped → ids mapped = ids todos
  | [], mapped, h => by
    simp only [mapTodos, Option.some.injEq] at h
    subst h; rfl
  | todo :: rest, mapped, h => by
    unfold mapTodos at h
    split at h
    · next t ts ht hts =>
      simp only [Option.some.injEq] at h
      subst h
      have ih := mapTodos_ids body rest ts hts
      simp only [ids, List.map_cons] at ih ⊢
      rw [ih, mergeTodo_id body ht]
    · simp at h

/-- C7: when the file holds a collection and the todo at some position has the
requested id, `PUT /todos/:id` answers 200 and the todo written back at that
position still has that id and has `completed` true when the request supplies
`completed: true`, the previous value when the request omits `completed`, and
the previous value when the request supplies `completed: false`. -/
theorem update_completed (env : Env) (id : String) (body : ReqBody) (todos : List Json)
    (hread : env.readFails = false) (hwrite : env.writeFails = false)
    (hn : ∀ t ∈ todos, t ≠ .null) (i : Nat) (t : Json)
    (hi : todos[i]? = some t) (ht : HasId id t) :
    ∃ mapped t',
      putTodoById env id body (some (.arr todos)) =
        { file := some (.arr mapped), sent := [⟨200, .empty⟩], threw := false } ∧
      mapped.length = todos.length ∧ mapped[i]? = some t' ∧ HasId id t' ∧
      (body.lookup "completed" = some (.bool true) →
        t'.prop "completed" = some (some (.bool true))) ∧
      (body.lookup "completed" = none → t'.prop "completed" = t.prop "completed") ∧
      (body.lookup "completed" = some (.bool false) →
        t'.prop "completed" = t.prop "completed") := by
  have hmem : t ∈ todos := List.getElem?_mem hi
  obtain ⟨pre, u, post, _, _, _, hfind⟩ := findIndex_present id todos hn ⟨t, hmem, ht⟩
  obtain ⟨mapped, hmap, hlen, hidx⟩ := mapTodos_some body todos hn
  obtain ⟨t', hget, hmerge⟩ := hidx i t hi
  obtain ⟨c, hc, hc'⟩ := mergeTodo_completed body hmerge
  refine ⟨mapped, t', ?_, hlen, hget, ?_, ?_, ?_, ?_⟩
  · simp [putTodoById, hread, hwrite, hfind, hmap]
  · rw [HasId, mergeTodo_id body hmerge]; exact ht
  · intro hb
    rw [hc', hb]; rfl
  · intro hb
    rw [hc', hb, hc]; rfl
  · intro hb
    rw [hc', hb, hc]; rfl

/-- The update of `completed` at the second of two todos, which is completed,
with the request `{completed: false}`. -/
theorem update_completed_witness :
    ∃ mapped t',
      putTodoById okEnv "b" [("completed", .bool false)] (some (.arr [todoA, todoB])) =
        { file := some (.arr mapped), sent := [⟨200, .empty⟩], threw := false } ∧
      mapped.length = [todoA, todoB].length ∧ mapped[1]? = some t' ∧ HasId "b" t' ∧
      (List.lookup "completed" [("completed", Json.bool false)] = some (.bool true) →
        t'.prop "completed" = some (some (.bool true))) ∧
      (List.lookup "completed" [("completed", Json.bool false)] = none →
        t'.prop "completed" = todoB.prop "completed") ∧
      (List.lookup "completed" [("completed", Json.bool false)] = some (.bool false) →
        t'.prop "completed" = todoB.prop "completed") :=
  update_completed okEnv "b" [("completed", .bool false)] [todoA, todoB] rfl rfl
    (by simp [todoA, todoB]) 1 todoB rfl rfl

/-- C1 fails on the code: `PUT /todos/a` with a new title rewrites every todo of
the collection, also the one whose id is `b`: it gets the new title, and its
description becomes the todo object itself. -/
theorem update_rewrites_other_todos :
    putTodoById okEnv "a" [("title", .str "Buy oat milk")] (some (.arr [todoA, todoB])) =
      { file := some (.arr
          [.obj [("id", .str "a"), ("title", .str "Buy oat milk"), ("description", todoA),
                 ("completed", .bool false)],
           .obj [("id", .str "b"), ("title", .str "Buy oat milk"), ("description", todoB),
                 ("completed", .bool true)]]),
        sent := [⟨200, .empty⟩], threw := false } ∧
    ¬ HasId "a" todoB ∧
    Json.obj [("id", .str "b"), ("title", .str "Buy oat milk"), ("description", todoB),
      ("completed", .bool true)] ≠ todoB := by
  refine ⟨rfl, ?_, ?_⟩
  · simp [HasId, Json.prop, todoB]
  · simp [todoB]

/-- C2 fails on the code: `PUT /todos/a` with an empty body replaces the
description of the todo by the todo object itself. -/
theorem update_empty_body_changes_description :
    HasId "a" todoA ∧
    putTodoById okEnv "a" [] (some (.arr [todoA])) =
      { file := some (.arr
          [.obj [("id", .str "a"), ("title", .str "Buy milk"), ("description", todoA),
                 ("completed", .bool false)]]),
        sent := [⟨200, .empty⟩], threw := false } ∧
    (putTodoById okEnv "a" [] (some (.arr [todoA]))).file ≠ some (.arr [todoA]) := by
  have h : putTodoById okEnv "a" [] (some (.arr [todoA])) =
      { file := some (.arr
          [.obj [("id", .str "a"), ("title", .str "Buy milk"), ("description", todoA),
                 ("completed", .bool false)]]),
        sent := [⟨200, .empty⟩], threw := false } := rfl
  refine ⟨rfl, h, ?_⟩
  rw [h]
  simp [todoA]

/-- C3 fails on the code: with an id that no todo has, `PUT /todos/:id` sends 404
and then still writes the rewritten collection; with no file, it throws before
any callback, nothing is written and the client gets the 500 of Express, not a
404. -/
theorem update_unknown_id_still_writes :
    (∀ t ∈ [todoA], ¬ HasId "zzz" t) ∧
    putTodoById okEnv "zzz" [("title", .str "X")] (some (.arr [todoA])) =
      { file := some (.arr
          [.obj [("id", .str "a"), ("title", .str "X"), ("description", todoA),
                 ("completed", .bool false)]]),
        sent := [⟨404, .empty⟩, ⟨200, .empty⟩], threw := false } ∧
    (putTodoById okEnv "zzz" [("title", .str "X")] (some (.arr [todoA]))).file
      ≠ some (.arr [todoA]) ∧
    putTodoById okEnv "zzz" [("title", .str "X")] none
      = { file := none, sent := [⟨500, .errorPage⟩], threw := true } ∧
    (putTodoById okEnv "zzz" [("title", .str "X")] none).response
      = some ⟨500, .errorPage⟩ ∧
    ¬ ∃ body, (putTodoById okEnv "zzz" [("title", .str "X")] none).response
      = some ⟨404, body⟩ := by
  have h : putTodoById okEnv "zzz" [("title", .str "X")] (some (.arr [todoA])) =
      { file := some (.arr
          [.obj [("id", .str "a"), ("title", .str "X"), ("description", todoA),
                 ("completed", .bool false)]]),
        sent := [⟨404, .empty⟩, ⟨200, .empty⟩], threw := false } := rfl
  have h2 : (putTodoById okEnv "zzz" [("title", .str "X")] none).response
      = some ⟨500, .errorPage⟩ := rfl
  refine ⟨?_, h, ?_, rfl, h2, ?_⟩
  · simp [HasId, Json.prop, todoA]
  · rw [h]
    simp [todoA]
  · rintro ⟨body, hb⟩
    rw [h2] at hb
    simp at hb

/-- With an id that no todo has and a write that fails, `PUT /todos/:id` sends
the 404 and then throws in the callback of the write; the file is as it was. -/
theorem update_unknown_id_failed_write :
    putTodoById { readFails := false, writeFails := true, uuid := "u1" } "zzz" []
        (some (.arr [todoA])) =
      { file := some (.arr [todoA]), sent := [⟨404, .empty⟩], threw := true } :=
  rfl

/-! ## Identifiers -/

theorem validIds_of_sublist {l l' : List (Option JsVal)} (hs : l'.Sublist l)
    (h : ValidIds l) : ValidIds l' :=
  ⟨fun v hv => h.1 v (hs.subset hv), h.2.sublist hs⟩

theorem validIds_eraseIdx (todos : List Json) (k : Nat) (h : ValidIds (ids todos)) :
    ValidIds (ids (todos.eraseIdx k)) :=
  validIds_of_sublist ((List.eraseIdx_sublist todos k).map _) h

theorem validIds_append_newTask (env : Env) (body : ReqBody) (todos : List Json)
    (hne : env.uuid ≠ "") (hfresh : ∀ t ∈ todos, ¬ HasId env.uuid t)
    (h : ValidIds (ids todos)) : ValidIds (ids (todos ++ [newTask env body])) := by
  have hid : (newTask env body).prop "id" = some (some (.str env.uuid)) :=
    newTask_hasId env body
  have hnot : some (some (Json.str env.uuid)) ∉ ids todos := by
    intro hmem
    obtain ⟨t, ht, hEq⟩ := List.mem_map.1 hmem
    exact hfresh t ht hEq
  constructor
  · intro v hv
    simp only [ids, List.map_append, List.map_cons, List.map_nil, List.mem_append,
      List.mem_singleton] at hv
    rcases hv with hv | hv
    · exact h.1 v hv
    · exact ⟨env.uuid, hne, by rw [hv, hid]⟩
  · simp only [ids, List.map_append, List.map_cons, List.map_nil, hid]
    refine List.Nodup.append h.2 (List.nodup_singleton _) ?_
    intro v hv hv'
    rw [List.mem_singleton] at hv'
    subst hv'
    exact hnot hv

theorem postTodos_file (env : Env) (body : ReqBody) (todos : List Json) :
    (postTodos env body (some (.arr todos))).file = some (.arr todos) ∨
    (postTodos env body (some (.arr todos))).file
      = some (.arr (todos ++ [newTask env body])) := by
  cases hr : env.readFails <;> cases hw : env.writeFails <;> simp [postTodos, hr, hw]

theorem putTodoById_file (env : Env) (id : String) (body : ReqBody) (todos : List Json) :
    (putTodoById env id body (some (.arr todos))).file = some (.arr todos) ∨
    ∃ mapped, mapTodos body todos = some mapped ∧
      (putTodoById env id body (some (.arr todos))).file = some (.arr mapped) := by
  cases hr : env.readFails <;> cases hw : env.writeFails <;>
    rcases hf : findIndex id todos with _ | _ | k <;>
    cases hm : mapTodos body todos <;>
    simp [putTodoById, hr, hw, hf, hm]

theorem deleteTodoById_file (env : Env) (id : String) (todos : List Json) :
    (deleteTodoById env id (some (.arr todos))).file = some (.arr todos) ∨
    ∃ k, (deleteTodoById env id (some (.arr todos))).file
      = some (.arr (todos.eraseIdx k)) := by
  cases hr : env.readFails <;> cases hw : env.writeFails <;>
    rcases hf : findIndex id todos with _ | _ | k <;>
    simp [deleteTodoById, hr, hw, hf]

/-- C10: if the identifiers of the persisted collection are non-empty strings,
pairwise distinct, and the id generator returns a non-empty string that is not
the id of a todo of the collection, then after a create, an update or a delete
the identifiers of the persisted collection are again non-empty strings,
pairwise distinct; and an update writes back todos with the same identifiers, in
the same order, as the ones it loaded. -/
theorem unique_ids_preserved (env : Env) (op : Op) (file : Option Json)
    (hinv : UniqueIds file) (hne : env.uuid ≠ "")
    (hfresh : ∀ todos, collection file = some todos → ∀ t ∈ todos, ¬ HasId env.uuid t) :
    UniqueIds (step env op file) ∧
    ∀ (id : String) (body : ReqBody) (todos todos' : List Json),
      file = some (.arr todos) →
      (putTodoById env id body file).file = some (.arr todos') →
      ids todos' = ids todos := by
  constructor
  · obtain ⟨todos, hc, hvalid⟩ := hinv
    cases file with
    | none =>
      simp only [collection, Option.some.injEq] at hc
      subst hc
      cases op with
      | create body =>
        show UniqueIds (postTodos env body none).file
        cases hw : env.writeFails <;> simp only [postTodos, hw]
        · exact ⟨[newTask env body], rfl,
            validIds_append_newTask env body [] hne (by simp) hvalid⟩
        · exact ⟨[], rfl, hvalid⟩
      | update id body => exact ⟨[], rfl, hvalid⟩
      | delete id => exact ⟨[], rfl, hvalid⟩
    | some data =>
      cases data <;> simp only [collection, Option.some.injEq, reduceCtorEq] at hc
      subst hc
      rename_i todos
      have hsame : UniqueIds (some (.arr todos)) := ⟨todos, rfl, hvalid⟩
      cases op with
      | create body =>
        show UniqueIds (postTodos env body (some (.arr todos))).file
        rcases postTodos_file env body todos with h | h
        · rw [h]; exact hsame
        · rw [h]
          exact ⟨_, rfl, validIds_append_newTask env body todos hne
            (hfresh todos rfl) hvalid⟩
      | update id body =>
        show UniqueIds (putTodoById env id body (some (.arr todos))).file
        rcases putTodoById_file env id body todos with h | ⟨mapped, hm, h⟩
        · rw [h]; exact hsame
        · rw [h]
          exact ⟨mapped, rfl, by rw [mapTodos_ids body todos mapped hm]; exact hvalid⟩
      | delete id =>
        show UniqueIds (deleteTodoById env id (some (.arr todos))).file
        rcases deleteTodoById_file env id todos with h | ⟨k, h⟩
        · rw [h]; exact hsame
        · rw [h]
          exact ⟨_, rfl, validIds_eraseIdx todos k hvalid⟩
  · intro id body todos todos' hfile hput
    subst hfile
    rcases putTodoById_file env id body todos with h | ⟨mapped, hm, h⟩
    · rw [h] at hput
      simp only [Option.some.injEq, Json.arr.injEq] at hput
      rw [hput]
    · rw [h] at hput
      simp only [Option.some.injEq, Json.arr.injEq] at hput
      rw [← hput]
      exact mapTodos_ids body todos mapped hm

/-- The invariant at a collection of two todos and an update. -/
theorem unique_ids_preserved_witness :
    UniqueIds (some (.arr [todoA, todoB])) ∧
    UniqueIds (step okEnv (.update "a" [("title", .str "X")]) (some (.arr [todoA, todoB]))) ∧
    ∀ (id : String) (body : ReqBody) (todos todos' : List Json),
      some (Json.arr [todoA, todoB]) = some (.arr todos) →
      (putTodoById okEnv id body (some (.arr [todoA, todoB]))).file = some (.arr todos') →
      ids todos' = ids todos :=
  have hinv : UniqueIds (some (.arr [todoA, todoB])) :=
    ⟨[todoA, todoB], rfl, by
      simp [ValidIds, ids, Json.prop, todoA, todoB, List.lookup]⟩
  ⟨hinv, unique_ids_preserved okEnv (.update "a" [("title", .str "X")])
    (some (.arr [todoA, todoB])) hinv (by simp [okEnv])
    (by
      intro todos hc t ht
      simp only [collection, Option.some.injEq] at hc
      subst hc
      simp only [List.mem_cons, List.mem_singleton, List.not_mem_nil, or_false] at ht
      rcases ht with rfl | rfl <;> simp [HasId, Json.prop, todoA, todoB, okEnv, List.lookup])⟩

end TodoServer
